import Mathlib

set_option maxRecDepth 8000

/-!
Shallow embedding of the crane load-chart extraction pipeline in
`src/build_crane_database.py`.

Modelling conventions:
* document text is `List Char`, raw PDF bytes are `List Nat`;
* Python floats are modelled as `ℚ` — every numeric value this program
  compares is a short decimal literal, whose IEEE-double rounding never
  crosses any of the plausibility bounds used (5, 200, 1, 0.5, 5000), so
  order and equality of the modelled values agree with the Python floats;
* Python regex character classes (`\s`, `\d`, `\w`, `[A-Z]`) are modelled
  over their ASCII ranges, the alphabet produced by the stream decoder and
  exercised by the extraction patterns;
* the fixed regular expressions of the source are hand-compiled to
  backtracking matchers with Python `re` semantics (leftmost match, greedy
  quantifiers with backtracking, first-alternative preference);
* scanning loops use explicit fuel (always sufficient by construction:
  every step consumes at least one element) so that all definitions reduce
  in the kernel.
-/

/-- Python regex `\s` over ASCII: space, tab, linefeed, vertical tab,
form feed, carriage return. -/
def isWSC (c : Char) : Bool :=
  c == ' ' || c == Char.ofNat 9 || c == Char.ofNat 10 ||
  c == Char.ofNat 11 || c == Char.ofNat 12 || c == Char.ofNat 13

/-- Python regex `\w` over ASCII: letters, digits, underscore. -/
def isWordC (c : Char) : Bool :=
  c.isAlpha || c.isDigit || c == '_'

/-- Collapse every whitespace run to a single space
(`re.sub(r"\s+", " ", s)`); the flag tracks whether the previous
character was whitespace. -/
def collapseWSAux : List Char → Bool → List Char
  | [], _ => []
  | c :: rest, prevWS =>
    if isWSC c then
      if prevWS then collapseWSAux rest true else ' ' :: collapseWSAux rest true
    else c :: collapseWSAux rest false

/-- Python `str.strip()` (ASCII whitespace). -/
def stripWSC (s : List Char) : List Char :=
  ((s.dropWhile isWSC).reverse.dropWhile isWSC).reverse

/-- `re.sub(r"\s+", " ", s).strip()`, the chunk normalization used by both
extractors. -/
def normWS (s : List Char) : List Char :=
  stripWSC (collapseWSAux s false)

/-- Worker for `split_candidates`: split on `\s{2,}` (greedy), `\s\|\s` or
`\s-\s`, first alternative preferred, scanning left to right.  `acc` holds
the current piece reversed.  Fuel is `length + 1`; every step consumes at
least one character. -/
def splitGo : Nat → List Char → List Char → List (List Char)
  | _, acc, [] => [acc.reverse]
  | 0, acc, rest => [acc.reverse ++ rest]
  | fuel+1, acc, c :: rest =>
    if isWSC c then
      match rest with
      | [] => [(c :: acc).reverse]
      | c2 :: rest2 =>
        if isWSC c2 then acc.reverse :: splitGo fuel [] (rest2.dropWhile isWSC)
        else if c2 == '|' || c2 == '-' then
          match rest2 with
          | c3 :: rest3 =>
            if isWSC c3 then acc.reverse :: splitGo fuel [] rest3
            else splitGo fuel (c :: acc) rest
          | [] => splitGo fuel (c :: acc) rest
        else splitGo fuel (c :: acc) rest
    else splitGo fuel (c :: acc) rest

/-- `split_candidates` (line 106): `re.split(r"\s{2,}|\s\|\s|\s-\s", text)`. -/
def split_candidates (text : List Char) : List (List Char) :=
  splitGo (text.length + 1) [] text

/-- First-some choice on options (Python regex alternative preference). -/
def orO (a b : Option α) : Option α :=
  match a with
  | some x => some x
  | none => b

/-- Greedy repetition of a character class with backtracking: try the
longest feasible count first, then shorter ones, handing each candidate
end position to the continuation `K`. -/
def greedyRepAux (K : Nat → Option α) (i lo : Nat) : Nat → Option α
  | 0 => if lo = 0 then K i else none
  | k+1 =>
    if lo ≤ k+1 then
      match K (i + (k+1)) with
      | some a => some a
      | none => greedyRepAux K i lo k
    else none

/-- Greedy `p{lo,hi}` at position `i` of `s` (with `hi = none` for
unbounded), continuing with `K` at the end position. -/
def greedyRep (p : Char → Bool) (lo : Nat) (hi : Option Nat) (s : List Char)
    (i : Nat) (K : Nat → Option α) : Option α :=
  let run := ((s.drop i).takeWhile p).length
  greedyRepAux K i lo (match hi with | some h => min run h | none => run)

/-- The number token `\d{1,maxd}(?:[\.,]\d+)?` at position `i`, with full
backtracking into the continuation `K` (which receives the end position of
the token). -/
def numTok (maxd : Nat) (s : List Char) (i : Nat) (K : Nat → Option α) : Option α :=
  greedyRep Char.isDigit 1 (some maxd) s i (fun j =>
    orO
      (match s[j]? with
       | some c =>
         if c == '.' || c == ',' then greedyRep Char.isDigit 1 none s (j+1) K
         else none
       | none => none)
      (K j))

/-- Python `\b` directly after a word character: position `p` is a boundary
iff it is the end of input or the next character is not a word character. -/
def boundaryAfter (s : List Char) (p : Nat) : Bool :=
  match s[p]? with
  | none => true
  | some c => !(isWordC c)

/-- The slice `s[i:j]`. -/
def sliceC (s : List Char) (i j : Nat) : List Char :=
  (s.drop i).take (j - i)

/-- One match of `(\d{1,maxd}(?:[\.,]\d+)?)\s*u\b` (unit letter `u`,
case-insensitive) at position `i`: returns the captured number and the end
of the match. -/
def matchNumUnit (maxd : Nat) (u U : Char) (s : List Char) (i : Nat) :
    Option (List Char × Nat) :=
  numTok maxd s i (fun j =>
    greedyRep isWSC 0 none s j (fun a =>
      match s[a]? with
      | some c =>
        if c == u || c == U then
          if boundaryAfter s (a+1) then some (sliceC s i j, a+1) else none
        else none
      | none => none))

/-- `NUMBER_M_RE` (line 10) at one position. -/
def matchNumM (s : List Char) (i : Nat) : Option (List Char × Nat) :=
  matchNumUnit 3 'm' 'M' s i

/-- `NUMBER_T_RE` (line 11) at one position. -/
def matchNumT (s : List Char) (i : Nat) : Option (List Char × Nat) :=
  matchNumUnit 4 't' 'T' s i

/-- The glue `\s*u\s+` between a number and the next number of the triple
pattern (unit letter case-insensitive). -/
def gapUnitGap (s : List Char) (j : Nat) (u U : Char) (K : Nat → Option α) :
    Option α :=
  greedyRep isWSC 0 none s j (fun a =>
    match s[a]? with
    | some c =>
      if c == u || c == U then greedyRep isWSC 1 none s (a+1) K else none
    | none => none)

/-- One match of `TRIPLE_RE` (lines 12–17) at position `i`: three captured
numbers and the end of the match. -/
def matchTriple (s : List Char) (i : Nat) :
    Option ((List Char × List Char × List Char) × Nat) :=
  numTok 3 s i (fun j1 =>
    gapUnitGap s j1 'm' 'M' (fun b =>
      numTok 3 s b (fun j2 =>
        gapUnitGap s j2 'm' 'M' (fun c2 =>
          numTok 4 s c2 (fun j3 =>
            greedyRep isWSC 0 none s j3 (fun a =>
              match s[a]? with
              | some ch =>
                if ch == 't' || ch == 'T' then
                  if boundaryAfter s (a+1) then
                    some ((sliceC s i j1, sliceC s b j2, sliceC s c2 j3), a+1)
                  else none
                else none
              | none => none))))))

/-- `re.findall` driver: scan positions left to right, record the first
match at each position and resume after its end.  All patterns used here
match at least one character, so fuel `len + 2` suffices. -/
def scanAll (matchAt : Nat → Option (α × Nat)) (len : Nat) :
    Nat → Nat → List α
  | _, 0 => []
  | i, fuel+1 =>
    if len < i then []
    else
      match matchAt i with
      | some (a, e) => a :: scanAll matchAt len (max e (i+1)) fuel
      | none => scanAll matchAt len (i+1) fuel

/-- `findall` of a character-level pattern over a string. -/
def findallC (matchAt : List Char → Nat → Option (α × Nat)) (s : List Char) :
    List α :=
  scanAll (matchAt s) s.length 0 (s.length + 2)

/-- One match of `CONFIG_CODE_RE` (line 9),
`\b([A-Z]{1,4}(?:-[A-Z]{1,3})?)\b`, at position `i`.  The first character
of any match is a word character, so the leading boundary holds iff the
previous character is absent or not a word character. -/
def matchConfigCode (s : List Char) (i : Nat) : Option (List Char × Nat) :=
  if i == 0 || !(isWordC (s.getD (i-1) ' ')) then
    greedyRep Char.isUpper 1 (some 4) s i (fun j =>
      orO
        (match s[j]? with
         | some c =>
           if c == '-' then
             greedyRep Char.isUpper 1 (some 3) s (j+1) (fun k =>
               if boundaryAfter s k then some (sliceC s i k, k) else none)
           else none
         | none => none)
        (if boundaryAfter s j then some (sliceC s i j, j) else none))
  else none

/-- `re.match(r"^([A-Z]{1,4}(?:-[A-Z]{1,3})?)\b", p)` (line 164): the
configuration-switch token anchored at the start of a chunk. -/
def anchoredCode (s : List Char) : Option (List Char) :=
  greedyRep Char.isUpper 1 (some 4) s 0 (fun j =>
    orO
      (match s[j]? with
       | some c =>
         if c == '-' then
           greedyRep Char.isUpper 1 (some 3) s (j+1) (fun k =>
             if boundaryAfter s k then some (sliceC s 0 k) else none)
         else none
       | none => none)
      (if boundaryAfter s j then some (sliceC s 0 j) else none))

/-- `CONFIG_HINTS` (lines 19–30). -/
def CONFIG_HINTS : List (List Char) :=
  ["main boom".toList, "hauptausleger".toList, "jib".toList,
   "klappspitze".toList, "luffing".toList, "wipp".toList, "fly".toList,
   "swing-away".toList, "offset".toList, "boom".toList]

/-- The stop-list of generic/vendor/unit tokens (line 129). -/
def STOP_CODES : List (List Char) :=
  ["PDF".toList, "LOAD".toList, "CHART".toList, "TON".toList, "MT".toList,
   "DEMAG".toList, "TEREX".toList, "TADANO".toList, "GROVE".toList,
   "LIEBHERR".toList]

/-- Python `str.lower()` over the ASCII letters (the only characters the
hint test can distinguish). -/
def lowerC (s : List Char) : List Char :=
  s.map Char.toLower

/-- Python substring containment (`pat in s`). -/
def containsSub (pat : List Char) : List Char → Bool
  | [] => pat.isEmpty
  | c :: rest => pat.isPrefixOf (c :: rest) || containsSub pat rest

/-- The per-chunk body of `extract_configurations` (lines 113–138): the
configuration entry contributed by one chunk, if any. -/
def configEntry? (part : List Char) : Option (List Char × List Char) :=
  let n := normWS part
  if n.length < 8 then none
  else if !(CONFIG_HINTS.any (fun h => containsSub h (lowerC n))) then none
  else
    match (findallC matchConfigCode n).find? (fun c => !(STOP_CODES.contains c)) with
    | none => none
    | some code => some (code, n.take 220)

/-- Lookup in an insertion-ordered association list (Python `dict`
membership and indexing on string keys). -/
def lookupC (c : List Char) : List (List Char × List Char) → Option (List Char)
  | [] => none
  | (k, v) :: es => if c = k then some v else lookupC c es

/-- One step of the configuration dictionary construction: insert only if
the code is not already present (lines 137–138). -/
def configStep (m : List (List Char × List Char)) (part : List Char) :
    List (List Char × List Char) :=
  match configEntry? part with
  | none => m
  | some (code, desc) =>
    if (lookupC code m).isSome then m else m ++ [(code, desc)]

/-- The chunk loop of `extract_configurations`. -/
def configsAux (m : List (List Char × List Char)) :
    List (List Char) → List (List Char × List Char)
  | [] => m
  | part :: parts => configsAux (configStep m part) parts

/-- `extract_configurations` (lines 111–140), as an insertion-ordered
association list from configuration code to description. -/
def extract_configurations (text : List Char) : List (List Char × List Char) :=
  configsAux [] (split_candidates text)

/-- Digit-string value. -/
def digitsVal (ds : List Char) : Nat :=
  ds.foldl (fun acc c => acc * 10 + (c.toNat - 48)) 0

/-- The signed rational `(-1)^neg * num / den` of a parsed float literal
(built with `mkRat` so the value is in lowest terms, making structural
equality coincide with value equality as for Python floats). -/
def mkQ (neg : Bool) (num den : Nat) : ℚ :=
  if neg then mkRat (-(num : Int)) den else mkRat num den

/-- Exponent suffix of a Python float literal — empty, or `e`/`E`,
optional sign, digits, with nothing after it — applied to the mantissa
fraction `num / den` by scaling the numerator or denominator by the power
of ten. -/
def parseExpQ (t : List Char) (neg : Bool) (num den : Nat) : Option ℚ :=
  match t with
  | [] => some (mkQ neg num den)
  | e :: r =>
    if e == 'e' || e == 'E' then
      let sr := match r with
        | '+' :: r2 => (false, r2)
        | '-' :: r2 => (true, r2)
        | _ => (false, r)
      let ds := sr.2.takeWhile Char.isDigit
      let r2 := sr.2.dropWhile Char.isDigit
      if ds.isEmpty || !r2.isEmpty then none
      else if sr.1 then some (mkQ neg num (den * 10 ^ digitsVal ds))
      else some (mkQ neg (num * 10 ^ digitsVal ds) den)
    else none

/-- Unsigned part of a Python float literal: digits with optional
fractional part (at least one digit on one side of the point), then an
optional exponent; the value is the fraction
`(intpart·10^len(frac) + frac) / 10^len(frac)`, exponent applied. -/
def parseMantissa (neg : Bool) (t : List Char) : Option ℚ :=
  let ip := t.takeWhile Char.isDigit
  let r1 := t.dropWhile Char.isDigit
  match r1 with
  | '.' :: r2 =>
    let fp := r2.takeWhile Char.isDigit
    let r3 := r2.dropWhile Char.isDigit
    if ip.isEmpty && fp.isEmpty then none
    else parseExpQ r3 neg (digitsVal ip * 10 ^ fp.length + digitsVal fp)
      (10 ^ fp.length)
  | _ => if ip.isEmpty then none else parseExpQ r1 neg (digitsVal ip) 1

/-- The Python builtin `float(str)` on the strings this program can feed
it: surrounding whitespace, optional sign, decimal digits with optional
fraction and exponent.  (`inf`/`nan` and underscore separators are
accepted by CPython but cannot reach `parse_float` here.)  Returns `none`
exactly where `float()` raises `ValueError`. -/
def pyFloat? (s : List Char) : Option ℚ :=
  match stripWSC s with
  | [] => none
  | '+' :: r => parseMantissa false r
  | '-' :: r => parseMantissa true r
  | t => parseMantissa false t

/-- `parse_float` (lines 143–147): normalize "," to "." and convert,
`None` on failure instead of an exception. -/
def parse_float (s : List Char) : Option ℚ :=
  pyFloat? (s.map (fun c => if c == ',' then '.' else c))

/-- `likely_value` (lines 150–151): `low <= v <= high`. -/
def likely_value (v low high : ℚ) : Bool :=
  decide (low ≤ v) && decide (v ≤ high)

/-- A load point `(config_code, boom_length_m, radius_m, capacity_t,
raw_snippet)`; `radius_m` is `None` exactly on the fallback path. -/
structure LoadPoint where
  config : List Char
  boom : ℚ
  radius : Option ℚ
  cap : ℚ
  snippet : List Char
deriving DecidableEq, Repr

/-- The deduplication key `row[:4]` (line 190). -/
def keyOf (pt : LoadPoint) : List Char × ℚ × Option ℚ × ℚ :=
  (pt.config, pt.boom, pt.radius, pt.cap)

/-- The triple-pattern step of the chunk loop (lines 169–176): one point
per `TRIPLE_RE` match whose three numbers parse and pass the plausibility
filters. -/
def triplePoints (cfg p : List Char) : List LoadPoint :=
  (findallC matchTriple p).filterMap (fun g =>
    match parse_float g.1, parse_float g.2.1, parse_float g.2.2 with
    | some boom, some radius, some cap =>
      if likely_value boom 5 200 && likely_value radius 1 200 &&
         likely_value cap (mkRat 1 2) 5000 then  -- 0.5 in the source
        some ⟨cfg, boom, some radius, cap, p.take 220⟩
      else none
    | _, _, _ => none)

/-- The plausible metre values of a chunk (lines 179 and 181). -/
def plausibleMs (p : List Char) : List ℚ :=
  ((findallC matchNumM p).map parse_float).filterMap (fun o =>
    match o with
    | some x => if likely_value x 5 200 then some x else none
    | none => none)

/-- The plausible ton values of a chunk (lines 180 and 182). -/
def plausibleTs (p : List Char) : List ℚ :=
  ((findallC matchNumT p).map parse_float).filterMap (fun o =>
    match o with
    | some x => if likely_value x (mkRat 1 2) 5000 then some x else none  -- 0.5 in the source
    | none => none)

/-- The fallback step of the chunk loop (lines 178–184): at most one point,
from the first plausible metre and ton values, with no radius. -/
def fallbackPoints (cfg p : List Char) : List LoadPoint :=
  match plausibleMs p, plausibleTs p with
  | m0 :: _, t0 :: _ => [⟨cfg, m0, none, t0, p.take 220⟩]
  | _, _ => []

/-- All points one chunk contributes, in emission order. -/
def chunkPoints (cfg p : List Char) : List LoadPoint :=
  triplePoints cfg p ++ fallbackPoints cfg p

/-- One iteration of the chunk loop of `extract_load_points`
(lines 158–184): normalize, skip short chunks, switch the current
configuration on a leading code token, then emit triple and fallback
points. -/
def processChunk (st : List Char × List LoadPoint) (part : List Char) :
    List Char × List LoadPoint :=
  if (normWS part).length < 4 then st
  else
    ((anchoredCode (normWS part)).getD st.1,
     st.2 ++ chunkPoints ((anchoredCode (normWS part)).getD st.1) (normWS part))

/-- The load points of a document before deduplication (the `points` list
at line 186). -/
def rawLoadPoints (text default_config : List Char) : List LoadPoint :=
  ((split_candidates text).foldl processChunk (default_config, [])).2

/-- The deduplication loop (lines 187–194): keep a row iff its key was not
seen before. -/
def dedupAux (seen : List (List Char × ℚ × Option ℚ × ℚ)) :
    List LoadPoint → List LoadPoint
  | [] => []
  | r :: rs =>
    if keyOf r ∈ seen then dedupAux seen rs
    else r :: dedupAux (keyOf r :: seen) rs

/-- `extract_load_points` (lines 154–195). -/
def extract_load_points (text default_config : List Char) : List LoadPoint :=
  dedupAux [] (rawLoadPoints text default_config)

/-- First load point with a given deduplication key. -/
def findPt? (k : List Char × ℚ × Option ℚ × ℚ) :
    List LoadPoint → Option LoadPoint
  | [] => none
  | r :: rs => if keyOf r = k then some r else findPt? k rs

/-! ### The stream decoder (`extract_pdf_text`, lines 50–103)

Raw PDF bytes are `List Nat`.  The zlib inflate of the Python `zlib`
module is an external library, abstracted as a `decompress` parameter of
type `List Nat → Option (List Nat)` (`none` models a decompression
exception, which the source catches and turns into a skip). -/

/-- Byte-level `\s` (Python bytes patterns are ASCII-only). -/
def isWSB (b : Nat) : Bool :=
  b == 32 || b == 9 || b == 10 || b == 11 || b == 12 || b == 13

/-- The eight bytes of `stream\r\n`. -/
def streamCRLF : List Nat := [115, 116, 114, 101, 97, 109, 13, 10]

/-- The seven bytes of `stream\n`. -/
def streamLF : List Nat := [115, 116, 114, 101, 97, 109, 10]

/-- The nine bytes of `endstream`. -/
def endstreamB : List Nat := [101, 110, 100, 115, 116, 114, 101, 97, 109]

/-- `re.finditer(rb"stream\r?\n", data)`: the positions right after each
(non-overlapping, leftmost, greedy-`\r?`) marker match. -/
def findStartsAux (data : List Nat) : Nat → Nat → List Nat
  | _, 0 => []
  | i, fuel+1 =>
    if data.length ≤ i then []
    else if streamCRLF.isPrefixOf (data.drop i) then
      (i+8) :: findStartsAux data (i+8) fuel
    else if streamLF.isPrefixOf (data.drop i) then
      (i+7) :: findStartsAux data (i+7) fuel
    else findStartsAux data (i+1) fuel

/-- All content-stream start positions in a byte sequence. -/
def streamStarts (data : List Nat) : List Nat :=
  findStartsAux data 0 (data.length + 1)

/-- `bytes.find(pat, start)`: first index at or after `start` where `pat`
occurs, `none` for Python's `-1`. -/
def findSubAux (pat data : List Nat) : Nat → Nat → Option Nat
  | _, 0 => none
  | i, fuel+1 =>
    if data.length < i then none
    else if pat.isPrefixOf (data.drop i) then some i
    else findSubAux pat data (i+1) fuel

/-- First occurrence of `pat` in `data` at or after `start`. -/
def findSub (pat data : List Nat) (start : Nat) : Option Nat :=
  findSubAux pat data start (data.length + 2)

/-- Strip one trailing end-of-line sequence before `endstream`
(lines 77–80). -/
def stripStreamEOL (l : List Nat) : List Nat :=
  if [13, 10].isSuffixOf l then l.take (l.length - 2)
  else if [10].isSuffixOf l then l.take (l.length - 1)
  else l

/-- The candidate compressed streams of a byte sequence: the bytes between
each `stream` marker and the following `endstream`, end-of-line stripped
(lines 70–80).  A marker with no `endstream` after it is skipped. -/
def candidateStreams (data : List Nat) : List (List Nat) :=
  (streamStarts data).filterMap (fun s =>
    match findSub endstreamB data s with
    | none => none
    | some e => some (stripStreamEOL ((data.drop s).take (e - s))))

/-- Byte-level substring containment (`pat in data`). -/
def containsSubB (pat : List Nat) : List Nat → Bool
  | [] => pat.isEmpty
  | b :: rest => pat.isPrefixOf (b :: rest) || containsSubB pat rest

/-- `b"Tj" in decoded or b"TJ" in decoded` (line 87, negated there). -/
def hasTextOp (d : List Nat) : Bool :=
  containsSubB [84, 106] d || containsSubB [84, 74] d

/-- Scanner for the lazy group of `\((.*?)\)\s*Tj` (and the `TJ` variant):
find the first close byte at or after `j` that is followed by optional
whitespace and the `tail` bytes; returns the group `d[start:j]` and the
position after `tail`.  Backtracking of the lazy group is exactly
"try the next close byte". -/
def scanDelim (d : List Nat) (closeB : Nat) (tail : List Nat) (start : Nat) :
    Nat → Nat → Option (List Nat × Nat)
  | _, 0 => none
  | j, fuel+1 =>
    if d.length ≤ j then none
    else if d[j]? == some closeB then
      let a := j + 1 + ((d.drop (j+1)).takeWhile isWSB).length
      if tail.isPrefixOf (d.drop a) then
        some ((d.drop start).take (j - start), a + tail.length)
      else scanDelim d closeB tail start (j+1) fuel
    else scanDelim d closeB tail start (j+1) fuel

/-- Scanner for the lazy group of `\((.*?)\)` inside a `TJ` array: group up
to the first close paren. -/
def scanCloseSimple (d : List Nat) (start : Nat) : Nat → Nat → Option (List Nat × Nat)
  | _, 0 => none
  | j, fuel+1 =>
    if d.length ≤ j then none
    else if d[j]? == some 41 then some ((d.drop start).take (j - start), j+1)
    else scanCloseSimple d start (j+1) fuel

/-- One match of `rb"\((.*?)\)\s*Tj"` at position `i`. -/
def matchTjAt (d : List Nat) (i : Nat) : Option (List Nat × Nat) :=
  if d[i]? == some 40 then scanDelim d 41 [84, 106] (i+1) (i+1) (d.length + 1)
  else none

/-- One match of `rb"\[(.*?)\]\s*TJ"` at position `i`. -/
def matchTJArrAt (d : List Nat) (i : Nat) : Option (List Nat × Nat) :=
  if d[i]? == some 91 then scanDelim d 93 [84, 74] (i+1) (i+1) (d.length + 1)
  else none

/-- One match of `rb"\((.*?)\)"` at position `i`. -/
def matchParenAt (d : List Nat) (i : Nat) : Option (List Nat × Nat) :=
  if d[i]? == some 40 then scanCloseSimple d (i+1) (i+1) (d.length + 1)
  else none

/-- `findall` of a byte-level pattern. -/
def findallB (matchAt : List Nat → Nat → Option (List Nat × Nat)) (d : List Nat) :
    List (List Nat) :=
  scanAll (matchAt d) d.length 0 (d.length + 2)

/-- One pass of Python `bytes.replace` (left to right, non-overlapping). -/
def replaceAllAux (pat rep : List Nat) : Nat → List Nat → List Nat
  | 0, l => l
  | _, [] => []
  | fuel+1, b :: rest =>
    if pat.isPrefixOf (b :: rest) then
      rep ++ replaceAllAux pat rep fuel ((b :: rest).drop pat.length)
    else b :: replaceAllAux pat rep fuel rest

/-- `bytes.replace(pat, rep)`. -/
def replaceAllB (pat rep l : List Nat) : List Nat :=
  replaceAllAux pat rep (l.length + 1) l

/-- CPython `utf-16-be` decoding with the `ignore` error handler, to code
points: big-endian units, surrogate pairs combined, lone surrogates and a
trailing odd byte dropped. -/
def utf16beDecode : List Nat → List Nat
  | b1 :: b2 :: c1 :: c2 :: rest =>
    let u := b1 * 256 + b2
    if 55296 ≤ u ∧ u ≤ 56319 then
      let v := c1 * 256 + c2
      if 56320 ≤ v ∧ v ≤ 57343 then
        (65536 + (u - 55296) * 1024 + (v - 56320)) :: utf16beDecode rest
      else utf16beDecode (c1 :: c2 :: rest)
    else if 56320 ≤ u ∧ u ≤ 57343 then utf16beDecode (c1 :: c2 :: rest)
    else u :: utf16beDecode (c1 :: c2 :: rest)
  | b1 :: b2 :: _ =>
    let u := b1 * 256 + b2
    if 55296 ≤ u ∧ u ≤ 56319 then []
    else if 56320 ≤ u ∧ u ≤ 57343 then []
    else [u]
  | _ => []

/-- `_decode_pdf_literal` (lines 50–63): unescape `\(`, `\)` and map the
`\n`/`\r`/`\t` escapes to spaces; then UTF-16-BE if a null byte is
present, else Latin-1 (byte value = code point). -/
def decode_pdf_literal (raw : List Nat) : List Char :=
  let r := replaceAllB [92, 116] [32]
    (replaceAllB [92, 114] [32]
      (replaceAllB [92, 110] [32]
        (replaceAllB [92, 41] [41]
          (replaceAllB [92, 40] [40] raw))))
  if r.contains 0 then (utf16beDecode r).map Char.ofNat
  else r.map Char.ofNat

/-- The displayed-text fragments of one decompressed stream (lines 90–99):
single-show `Tj` literals first, then the literals of each `TJ` array,
each decoded, stripped, and dropped if empty. -/
def fragsOfStream (d : List Nat) : List (List Char) :=
  ((findallB matchTjAt d).map (fun raw => stripWSC (decode_pdf_literal raw))).filter
      (fun t => !t.isEmpty) ++
  (((findallB matchTJArrAt d).map (fun arr => findallB matchParenAt arr)).flatten.map
      (fun raw => stripWSC (decode_pdf_literal raw))).filter (fun t => !t.isEmpty)

/-- `extract_pdf_text` (lines 66–103) on raw bytes, with the zlib inflate
abstracted as `decompress`: decode every candidate stream that inflates
and shows text, join all fragments with single spaces, collapse whitespace
and trim. -/
def extract_pdf_text (decompress : List Nat → Option (List Nat))
    (data : List Nat) : List Char :=
  normWS (List.intercalate [' ']
    ((candidateStreams data).map (fun st =>
      match decompress st with
      | none => []
      | some d => if hasTextOp d then fragsOfStream d else [])).flatten)

/-! ## Helper lemmas -/

theorem orO_none (a : Option α) : orO a none = a := by
  cases a <;> rfl

theorem lookupC_append (c : List Char) (l1 l2 : List (List Char × List Char)) :
    lookupC c (l1 ++ l2) = orO (lookupC c l1) (lookupC c l2) := by
  induction l1 with
  | nil => rfl
  | cons e l1 ih =>
    obtain ⟨k, v⟩ := e
    by_cases h : c = k
    · simp [lookupC, h, orO]
    · simp [lookupC, h, ih]

/-- The configuration dictionary built from an initial table `m` looks up
`c` first in `m`, then as the first entry with key `c` contributed by the
chunks, in chunk order. -/
theorem lookupC_configsAux (parts : List (List Char)) :
    ∀ (m : List (List Char × List Char)) (c : List Char),
      lookupC c (configsAux m parts) =
        orO (lookupC c m) (lookupC c (parts.filterMap configEntry?)) := by
  induction parts with
  | nil =>
    intro m c
    simp [configsAux, List.filterMap_nil, lookupC, orO_none]
  | cons part parts ih =>
    intro m c
    rw [configsAux, ih]
    cases he : configEntry? part with
    | none =>
      simp [configStep, he, List.filterMap_cons]
    | some e =>
      obtain ⟨c0, d0⟩ := e
      simp only [configStep, he, List.filterMap_cons]
      by_cases hcc : c = c0
      · subst hcc
        by_cases hm : (lookupC c m).isSome
        · obtain ⟨v, hv⟩ := Option.isSome_iff_exists.mp hm
          rw [if_pos (by rw [hv]; rfl)]
          simp [lookupC, hv, orO]
        · have hnone : lookupC c m = none := Option.not_isSome_iff_eq_none.mp hm
          rw [if_neg (by rw [hnone]; simp)]
          rw [lookupC_append]
          simp [lookupC, hnone, orO]
      · by_cases hm : (lookupC c0 m).isSome
        · rw [if_pos hm]
          simp [lookupC, hcc]
        · rw [if_neg hm]
          rw [lookupC_append]
          simp [lookupC, hcc, orO_none]

/-- No chunk of `pre` contributes an entry with key `c`. -/
theorem lookupC_filterMap_none (c : List Char) (pre : List (List Char))
    (hpre : ∀ p ∈ pre, ∀ e : List Char × List Char,
      configEntry? p = some e → e.1 ≠ c) :
    lookupC c (pre.filterMap configEntry?) = none := by
  induction pre with
  | nil => rfl
  | cons p pre ih =>
    have htail : ∀ q ∈ pre, ∀ e : List Char × List Char,
        configEntry? q = some e → e.1 ≠ c := by
      intro q hq e he
      exact hpre q (List.mem_cons_of_mem p hq) e he
    cases he : configEntry? p with
    | none => simp [List.filterMap_cons, he, ih htail]
    | some e =>
      obtain ⟨k, v⟩ := e
      have hk : k ≠ c := hpre p (List.mem_cons_self p pre) (k, v) he
      have hck : ¬ c = k := fun hh => hk hh.symm
      simp [List.filterMap_cons, he, lookupC, hck, ih htail]

theorem dedupAux_key_not_seen :
    ∀ (l : List LoadPoint) (seen : List (List Char × ℚ × Option ℚ × ℚ))
      (r : LoadPoint), r ∈ dedupAux seen l → keyOf r ∉ seen := by
  intro l
  induction l with
  | nil =>
    intro seen r h
    simp [dedupAux] at h
  | cons a l ih =>
    intro seen r h
    by_cases hm : keyOf a ∈ seen
    · rw [dedupAux, if_pos hm] at h
      exact ih seen r h
    · rw [dedupAux, if_neg hm] at h
      rcases List.mem_cons.mp h with h | h
      · subst h; exact hm
      · have := ih (keyOf a :: seen) r h
        intro hs
        exact this (List.mem_cons_of_mem _ hs)

theorem dedupAux_pairwise :
    ∀ (l : List LoadPoint) (seen : List (List Char × ℚ × Option ℚ × ℚ)),
      List.Pairwise (fun a b => keyOf a ≠ keyOf b) (dedupAux seen l) := by
  intro l
  induction l with
  | nil => intro seen; simp [dedupAux]
  | cons a l ih =>
    intro seen
    by_cases hm : keyOf a ∈ seen
    · rw [dedupAux, if_pos hm]; exact ih seen
    · rw [dedupAux, if_neg hm]
      refine List.Pairwise.cons ?_ (ih _)
      intro b hb hab
      have hbn := dedupAux_key_not_seen l (keyOf a :: seen) b hb
      exact hbn (by rw [← hab]; exact List.mem_cons_self _ _)

theorem dedupAux_findPt (k : List Char × ℚ × Option ℚ × ℚ) :
    ∀ (l : List LoadPoint) (seen : List (List Char × ℚ × Option ℚ × ℚ)),
      k ∉ seen → findPt? k (dedupAux seen l) = findPt? k l := by
  intro l
  induction l with
  | nil => intro seen _; rfl
  | cons a l ih =>
    intro seen hk
    by_cases hm : keyOf a ∈ seen
    · have hak : ¬ keyOf a = k := fun h => hk (h ▸ hm)
      rw [dedupAux, if_pos hm, ih seen hk]
      simp [findPt?, hak]
    · rw [dedupAux, if_neg hm]
      by_cases hak : keyOf a = k
      · simp [findPt?, hak]
      · simp only [findPt?, if_neg hak]
        apply ih
        intro hmem
        rcases List.mem_cons.mp hmem with h | h
        · exact hak h.symm
        · exact hk h

theorem fallbackPoints_length_le (cfg p : List Char) :
    (fallbackPoints cfg p).length ≤ 1 := by
  unfold fallbackPoints
  split <;> simp

theorem map_flatten_nil {β γ : Type} (l : List β) (f : β → List γ)
    (h : ∀ x ∈ l, f x = []) : (l.map f).flatten = [] := by
  induction l with
  | nil => rfl
  | cons a l ih =>
    have ha := h a (List.mem_cons_self a l)
    have htail : ∀ x ∈ l, f x = [] := fun x hx => h x (List.mem_cons_of_mem a hx)
    simp [ha, ih htail]

/-! ## Claims -/

/-- C1, counterexample: the chunk `"10 m 3 m 45 t"` contains a triple
whose radius (3 m) lies outside [5, 200], yet the extractor emits a
LoadPoint for it (the code's radius filter is `likely_value(radius, 1,
200)`, so 3 passes), together with the fallback point of the same chunk. -/
theorem c1_radius_counterexample :
    extract_load_points ("10 m 3 m 45 t".toList) ("UNKNOWN".toList) =
      [⟨"UNKNOWN".toList, 10, some 3, 45, "10 m 3 m 45 t".toList⟩,
       ⟨"UNKNOWN".toList, 10, none, 45, "10 m 3 m 45 t".toList⟩] := by
  decide

/-- C1 (amended): in the triple pattern, each emitted LoadPoint passed the
plausibility filters of the code — boom length in [5, 200], radius present
and in [1, 200] (not [5, 200] as the spec states), capacity in
[0.5, 5000]; a triple with any number outside these ranges emits no
triple-pattern LoadPoint. -/
theorem c1_triple_plausibility (cfg p : List Char) (pt : LoadPoint)
    (h : pt ∈ triplePoints cfg p) :
    (5 ≤ pt.boom ∧ pt.boom ≤ 200) ∧
    (∃ r, pt.radius = some r ∧ 1 ≤ r ∧ r ≤ 200) ∧
    (mkRat 1 2 ≤ pt.cap ∧ pt.cap ≤ 5000) := by
  simp only [triplePoints, List.mem_filterMap] at h
  obtain ⟨g, -, hg⟩ := h
  cases hb : parse_float g.1 <;> rw [hb] at hg
  case none => exact absurd hg (by simp)
  case some boom =>
  cases hr : parse_float g.2.1 <;> rw [hr] at hg
  case none => exact absurd hg (by simp)
  case some radius =>
  cases hc : parse_float g.2.2 <;> rw [hc] at hg
  case none => exact absurd hg (by simp)
  case some cap =>
  simp only [] at hg
  by_cases hcond : (likely_value boom 5 200 && likely_value radius 1 200 &&
      likely_value cap (mkRat 1 2) 5000) = true
  · rw [if_pos hcond] at hg
    obtain rfl := Option.some.inj hg
    simp only [likely_value, Bool.and_eq_true, decide_eq_true_eq] at hcond
    exact ⟨⟨hcond.1.1.1, hcond.1.1.2⟩, ⟨radius, rfl, hcond.1.2.1, hcond.1.2.2⟩,
      hcond.2.1, hcond.2.2⟩
  · rw [if_neg hcond] at hg
    exact absurd hg (by simp)

/-- C1 witness: the amended theorem applied to the triple point of the
chunk `"10 m 3 m 45 t"`. -/
theorem c1_triple_plausibility_witness :
    ((5 : ℚ) ≤ 10 ∧ (10 : ℚ) ≤ 200) ∧
    (∃ r, (some (3 : ℚ) : Option ℚ) = some r ∧ 1 ≤ r ∧ r ≤ 200) ∧
    (mkRat 1 2 ≤ (45 : ℚ) ∧ (45 : ℚ) ≤ 5000) :=
  c1_triple_plausibility ("UNKNOWN".toList) ("10 m 3 m 45 t".toList)
    ⟨"UNKNOWN".toList, 10, some 3, 45, "10 m 3 m 45 t".toList⟩ (by decide)

/-- C2, counterexample: the single chunk
`"10 m 10 m 10 t 11 m 11 m 11 t"` (the whole text is one chunk) yields
three LoadPoints before deduplication — two triple-pattern matches plus
one fallback point — refuting the bound of two per chunk. -/
theorem c2_three_points_counterexample :
    split_candidates ("10 m 10 m 10 t 11 m 11 m 11 t".toList) =
      ["10 m 10 m 10 t 11 m 11 m 11 t".toList] ∧
    rawLoadPoints ("10 m 10 m 10 t 11 m 11 m 11 t".toList) ("UNKNOWN".toList) =
      [⟨"UNKNOWN".toList, 10, some 10, 10, "10 m 10 m 10 t 11 m 11 m 11 t".toList⟩,
       ⟨"UNKNOWN".toList, 11, some 11, 11, "10 m 10 m 10 t 11 m 11 m 11 t".toList⟩,
       ⟨"UNKNOWN".toList, 10, none, 10, "10 m 10 m 10 t 11 m 11 m 11 t".toList⟩] := by
  decide

/-- C2 (amended): before deduplication a chunk contributes at most one
LoadPoint per triple-pattern match plus at most one fallback LoadPoint;
since `TRIPLE_RE` can match several times in one chunk, a chunk can
contribute more than two points. -/
theorem c2_per_chunk_bound (cfg p : List Char) :
    (chunkPoints cfg p).length ≤ (findallC matchTriple p).length + 1 := by
  have h1 : (triplePoints cfg p).length ≤ (findallC matchTriple p).length := by
    simp only [triplePoints]
    exact List.length_filterMap_le _ _
  have h2 := fallbackPoints_length_le cfg p
  simp only [chunkPoints, List.length_append]
  omega

/-- C3: for every byte sequence in which no candidate stream both inflates
and contains a text-showing operator, the stream decoder returns the empty
document text, and the two extractors map empty text to empty result
sets.  (All the modelled operations are total functions into plain result
types: the fallible steps — inflate, float conversion — are `Option`
valued, mirroring the source's exception handlers, so no input can make
the pipeline fail.) -/
theorem c3_no_text_stream_empty (decompress : List Nat → Option (List Nat))
    (data : List Nat)
    (h : ∀ st ∈ candidateStreams data, ∀ d, decompress st = some d →
      hasTextOp d = false) :
    extract_pdf_text decompress data = [] ∧
    extract_configurations [] = [] ∧
    extract_load_points [] ("UNKNOWN".toList) = [] := by
  refine ⟨?_, rfl, rfl⟩
  unfold extract_pdf_text
  have hz : ((candidateStreams data).map (fun st =>
      match decompress st with
      | none => []
      | some d => if hasTextOp d then fragsOfStream d else [])).flatten =
      ([] : List (List Char)) := by
    apply map_flatten_nil
    intro st hst
    cases hd : decompress st with
    | none => rfl
    | some d => simp [h st hst d hd]
  rw [hz]
  rfl

/-- C3 witness: a four-byte input with no stream marker at all, with an
inflate that always fails. -/
theorem c3_no_text_stream_empty_witness :
    extract_pdf_text (fun _ => none) [37, 80, 68, 70] = [] ∧
    extract_configurations [] = [] ∧
    extract_load_points [] ("UNKNOWN".toList) = [] :=
  c3_no_text_stream_empty (fun _ => none) [37, 80, 68, 70]
    (fun _ _ _ hd => Option.noConfusion hd)

/-- C4: the deduplicated output never contains two LoadPoints with the
same `(config_code, boom, radius, capacity)` key, and for every key the
surviving LoadPoint is exactly the first point with that key in the
pre-deduplication list — so it carries the earlier occurrence's
snippet. -/
theorem c4_dedup_first_wins (text : List Char)
    (k : List Char × ℚ × Option ℚ × ℚ) :
    List.Pairwise (fun a b => keyOf a ≠ keyOf b)
      (extract_load_points text ("UNKNOWN".toList)) ∧
    findPt? k (extract_load_points text ("UNKNOWN".toList)) =
      findPt? k (rawLoadPoints text ("UNKNOWN".toList)) := by
  constructor
  · exact dedupAux_pairwise _ _
  · exact dedupAux_findPt k _ [] (by simp)

/-- C5: the end-to-end scenario — the two-chunk text yields exactly the
configuration mapping from "MB" to the first chunk, and the claimed load
point ("MB", 12.0, 8.0, 45.0, second chunk) is among the extracted load
points. -/
theorem c5_end_to_end_scenario :
    extract_configurations
        ("MB Hauptausleger configuration  12.0 m 8.0 m 45.0 t lift data".toList) =
      [("MB".toList, "MB Hauptausleger configuration".toList)] ∧
    (⟨"MB".toList, 12, some 8, 45, "12.0 m 8.0 m 45.0 t lift data".toList⟩ :
        LoadPoint) ∈
      extract_load_points
        ("MB Hauptausleger configuration  12.0 m 8.0 m 45.0 t lift data".toList)
        ("UNKNOWN".toList) := by
  decide

/-- C6: if the chunk sequence decomposes as `pre ++ ci :: mid ++ cj ::
post` where both `ci` and `cj` yield configuration code `c` and no chunk
before `ci` yields `c`, then the stored description is `ci`'s — the later
chunk `cj` never overwrites it. -/
theorem c6_earlier_chunk_wins (text : List Char) (pre mid post : List (List Char))
    (ci cj c di dj : List Char)
    (hsplit : split_candidates text = pre ++ ci :: (mid ++ cj :: post))
    (hi : configEntry? ci = some (c, di))
    (hj : configEntry? cj = some (c, dj))
    (hpre : ∀ p ∈ pre, ∀ e : List Char × List Char,
      configEntry? p = some e → e.1 ≠ c) :
    lookupC c (extract_configurations text) = some di := by
  unfold extract_configurations
  rw [hsplit, lookupC_configsAux]
  show lookupC c ((pre ++ ci :: (mid ++ cj :: post)).filterMap configEntry?) =
    some di
  rw [List.filterMap_append, lookupC_append, lookupC_filterMap_none c pre hpre]
  show lookupC c ((ci :: (mid ++ cj :: post)).filterMap configEntry?) = some di
  simp [List.filterMap_cons, hi, lookupC]

/-- C6 witness: two chunks both yielding code "MB"; the stored description
is the first chunk's. -/
theorem c6_earlier_chunk_wins_witness :
    lookupC ("MB".toList)
      (extract_configurations ("MB main boom first  MB main boom beta".toList)) =
      some ("MB main boom first".toList) :=
  c6_earlier_chunk_wins ("MB main boom first  MB main boom beta".toList)
    [] [] [] ("MB main boom first".toList) ("MB main boom beta".toList)
    ("MB".toList) ("MB main boom first".toList) ("MB main boom beta".toList)
    (by decide) (by decide) (by decide) (fun p hp => nomatch hp)

/-- C7: the capacity plausibility bounds are inclusive — `likely_value`
accepts 0.5 and 5000 and rejects 0.49 and 5000.01, and end to end a
capacity of exactly 0.5 or 5000 produces load points while 0.49 or
5000.01 produces none. -/
theorem c7_capacity_bounds_inclusive :
    likely_value (mkRat 1 2) (mkRat 1 2) 5000 = true ∧
    likely_value 5000 (mkRat 1 2) 5000 = true ∧
    likely_value (mkRat 49 100) (mkRat 1 2) 5000 = false ∧
    likely_value (mkRat 500001 100) (mkRat 1 2) 5000 = false ∧
    extract_load_points ("10 m 10 m 0.5 t".toList) ("UNKNOWN".toList) =
      [⟨"UNKNOWN".toList, 10, some 10, mkRat 1 2, "10 m 10 m 0.5 t".toList⟩,
       ⟨"UNKNOWN".toList, 10, none, mkRat 1 2, "10 m 10 m 0.5 t".toList⟩] ∧
    extract_load_points ("10 m 10 m 5000 t".toList) ("UNKNOWN".toList) =
      [⟨"UNKNOWN".toList, 10, some 10, 5000, "10 m 10 m 5000 t".toList⟩,
       ⟨"UNKNOWN".toList, 10, none, 5000, "10 m 10 m 5000 t".toList⟩] ∧
    extract_load_points ("10 m 10 m 0.49 t".toList) ("UNKNOWN".toList) = [] ∧
    extract_load_points ("10 m 10 m 5000.01 t".toList) ("UNKNOWN".toList) = [] := by
  decide

/-- C8: numeric parsing accepts both "," and "." as decimal separator
("12,5" and "12.5" both parse to 12.5), and strings that are not float
literals yield `none` rather than an error. -/
theorem c8_parse_float_semantics :
    parse_float ("12,5".toList) = some (mkRat 25 2) ∧
    parse_float ("12.5".toList) = some (mkRat 25 2) ∧
    parse_float ("abc".toList) = none ∧
    parse_float ("1.2.3".toList) = none ∧
    parse_float [] = none := by
  decide

/-- C9: the configuration switch applies neither the hint filter nor the
stop-list — any chunk of length at least 4 whose start matches the code
pattern switches the current configuration (first conjunct), and on the
text `"LOAD 10 m 10 m 45 t"` the load points carry config code "LOAD" (a
stop-list token) while the configuration extractor produces no record at
all. -/
theorem c9_switch_unfiltered :
    (∀ (st : List Char × List LoadPoint) (part c : List Char),
        4 ≤ (normWS part).length →
        anchoredCode (normWS part) = some c →
        (processChunk st part).1 = c) ∧
    extract_load_points ("LOAD 10 m 10 m 45 t".toList) ("UNKNOWN".toList) =
      [⟨"LOAD".toList, 10, some 10, 45, "LOAD 10 m 10 m 45 t".toList⟩,
       ⟨"LOAD".toList, 10, none, 45, "LOAD 10 m 10 m 45 t".toList⟩] ∧
    extract_configurations ("LOAD 10 m 10 m 45 t".toList) = [] := by
  refine ⟨?_, by decide, by decide⟩
  intro st part c h4 hc
  unfold processChunk
  rw [if_neg (by omega), hc]
  rfl

/-- C9 witness: the switch theorem applied to a chunk led by the stop-list
token "TON". -/
theorem c9_switch_unfiltered_witness :
    (processChunk ("UNKNOWN".toList, []) ("TON 5 boom".toList)).1 = "TON".toList :=
  c9_switch_unfiltered.1 ("UNKNOWN".toList, []) ("TON 5 boom".toList)
    ("TON".toList) (by decide) (by decide)

/-- C10: with no left word-boundary on the digit group, the meter and
triple patterns match only the trailing three digits of `"1150 m"`, so the
chunk `"1150 m 10 m 45 t"` produces load points whose boom length is
150. -/
theorem c10_digit_suffix_match :
    findallC matchNumM ("1150 m 10 m 45 t".toList) =
      ["150".toList, "10".toList] ∧
    findallC matchTriple ("1150 m 10 m 45 t".toList) =
      [("150".toList, "10".toList, "45".toList)] ∧
    extract_load_points ("1150 m 10 m 45 t".toList) ("UNKNOWN".toList) =
      [⟨"UNKNOWN".toList, 150, some 10, 45, "1150 m 10 m 45 t".toList⟩,
       ⟨"UNKNOWN".toList, 150, none, 45, "1150 m 10 m 45 t".toList⟩] := by
  decide
